import Mathlib

/-!
Verification of the chia-blockchain subset: service bootstrap harness
(`chia/simulator/setup_services.py`), the coin spend composition engine
(`chia/wallet/action_manager/coin_info.py`) and the CAT wallet
(`chia/wallet/cat_wallet/cat_wallet.py`).

Machine integers in the source (uint64/uint128 from `chia.util.ints`) raise on
out-of-range construction rather than wrapping; amounts and costs are modelled
as `Nat`.  Byte strings (coin ids, puzzle hashes, public keys, program trees)
are modelled as `Nat` identifiers; cryptographic and CLVM helpers that live
outside the given sources are abstracted as explicit function parameters.
-/

/-! ### Service bootstrap harness: `chia/simulator/setup_services.py` -/

/-- The `Capability.BASE` protocol capability value.  Modelled from the spec:
the `Capability` enum itself lives in `chia.protocols.shared_protocol`, which
is not among the given sources; capability values are small integers and BASE
is the one capability that can never be disabled. -/
def Capability.BASE : Nat := 1

/-- Modelled from the spec: the master protocol-capability list `capabilities`
from `chia.protocols.shared_protocol` (not among the given sources).  Each
entry pairs a capability value with its enabled flag; per the spec every
capability, BASE included, starts out enabled (flag "1"). -/
def capabilities : List (Nat × String) := [(1, "1"), (2, "1"), (3, "1")]

/-- `get_capabilities` (setup_services.py lines 50-67).  The source mutates the
caller's list in place (`disable_capabilities_values.remove(Capability.BASE)`
removes the first occurrence), so the embedding returns the updated capability
list together with the final state of the caller's list.  The master list is a
parameter `caps` standing for the module-level `capabilities` constant.  The
`try`/`except` fallback only fires when a capability value is not a member of
the `Capability` enum, which the model does not track. -/
def get_capabilities (caps : List (Nat × String))
    (disable_capabilities_values : Option (List Nat)) :
    List (Nat × String) × Option (List Nat) :=
  match disable_capabilities_values with
  | none => (caps, none)
  | some dvals =>
      let dvals := if Capability.BASE ∈ dvals
                   then dvals.erase Capability.BASE else dvals
      let updated_capabilities :=
        caps.map (fun capability =>
          if capability.1 ∈ dvals then (capability.1, "0") else capability)
      (updated_capabilities, some dvals)

/-- The database file guarded by `dbp`: `none` means no file exists at
`db_path`; `some rows` means the file exists and its `database_version` table
holds exactly the rows `rows`. -/
abbrev DBFile := Option (List Int)

/-- Entry phase of `dbp(db_path, db_version)` (setup_services.py lines 88-99,
up to the `yield`).  In the source the `if db_version > 1` block that creates
the `database_version` stub is nested inside the `if db_path.exists()` block,
so when no file pre-exists nothing is created at all. -/
def dbp_enter (file : DBFile) (db_version : Int) : DBFile :=
  match file with
  | some _ => if db_version > 1 then some [db_version] else none
  | none => none

/-- Exit phase of `dbp` (setup_services.py lines 101-102): the file is deleted
again if it exists. -/
def dbp_exit (file : DBFile) : DBFile :=
  match file with
  | some _ => none
  | none => none

/-! ### CAT wallet: `chia/wallet/cat_wallet/cat_wallet.py` -/

/-- The accumulation loop of `CATWallet.get_max_send_amount` (cat_wallet.py
lines 317-328).  Coins are represented by their amounts.  `max_cost` is
`MAX_BLOCK_COST_CLVM / 2`, a Python float division, modelled exactly as a
rational (exact for the magnitudes the network constant takes).  The loop adds
each coin's amount and cost and breaks when the current cost plus one further
per-transaction cost exceeds the budget.  The source also counts coins in
`total_coin_count`, which does not affect the returned amount and is omitted. -/
def get_max_send_amount_loop (cost_of_single_tx : Nat) (max_cost : ℚ) :
    List Nat → Nat → Nat → Nat
  | [], _, total_amount => total_amount
  | amount :: rest, current_cost, total_amount =>
      let current_cost := current_cost + cost_of_single_tx
      let total_amount := total_amount + amount
      if ((current_cost + cost_of_single_tx : Nat) : ℚ) > max_cost then total_amount
      else get_max_send_amount_loop cost_of_single_tx max_cost rest current_cost total_amount

/-- `CATWallet.get_max_send_amount` (cat_wallet.py lines 294-328).  The
spendable coins are represented by their amounts and sorted descending
(`spendable.sort(reverse=True, key=amount)`; any descending sort yields the
same amount sums).  The cost probe that fills the `cost_of_single_tx` cache
builds and measures a self-payment through external CLVM machinery not among
the given sources, so the per-transaction cost is taken as the parameter
`cost_of_single_tx`, matching the claim's "per-transaction cost C". -/
def CATWallet.get_max_send_amount (spendable_amounts : List Nat)
    (cost_of_single_tx : Nat) (max_block_cost_clvm : Nat) : Nat :=
  if spendable_amounts.isEmpty then 0
  else
    let spendable := spendable_amounts.insertionSort (fun a b => a ≥ b)
    get_max_send_amount_loop cost_of_single_tx ((max_block_cost_clvm : ℚ) / 2)
      spendable 0 0

/-- A coin, identified by `(parent_coin_info, puzzle_hash, amount)`; ids and
hashes are modelled as `Nat`. -/
structure Coin where
  parent_coin_info : Nat
  puzzle_hash : Nat
  amount : Nat
deriving DecidableEq, Repr

/-- `LineageProof` from the data model: parent's parent coin id, parent's
inner puzzle hash and parent's amount, each optional. -/
structure LineageProof where
  parent_name : Option Nat
  inner_puzzle_hash : Option Nat
  amount : Option Nat
deriving DecidableEq, Repr

/-- Modelled from the spec: `LineageProof.is_none` (from
`chia/wallet/lineage_proof.py`, not among the given sources) holds when every
field of the proof is absent — the "present but empty" lineage proof. -/
def LineageProof.is_none (lp : LineageProof) : Bool :=
  lp.parent_name.isNone && lp.inner_puzzle_hash.isNone && lp.amount.isNone

/-- The slice of wallet-manager state that the CAT balance queries read: the
per-asset lineage store keyed by parent coin id, the unspent coin records
(`coin_store.get_unspent_coins_for_wallet`) and the spendable coin records
(`wallet_state_manager.get_spendable_coins_for_wallet`, which additionally
excludes coins implicated in in-flight transactions). -/
structure CATWalletState where
  lineage_store : List (Nat × LineageProof)
  unspent_coins : List Coin
  spendable_coins : List Coin

/-- `CATWallet.get_lineage_proof_for_coin` (cat_wallet.py lines 555-556):
looks the coin's parent id up in the lineage store. -/
def CATWallet.get_lineage_proof_for_coin (s : CATWalletState) (coin : Coin) :
    Option LineageProof :=
  s.lineage_store.lookup coin.parent_coin_info

/-- `CATWallet.get_confirmed_balance` (cat_wallet.py lines 278-289): sums the
amounts of unspent coins whose lineage proof is present (`lineage is not
None`), regardless of the proof's contents. -/
def CATWallet.get_confirmed_balance (s : CATWalletState) : Nat :=
  ((s.unspent_coins.filter
      (fun record => (CATWallet.get_lineage_proof_for_coin s record).isSome)).map
    (fun record => record.amount)).sum

/-- `CATWallet.get_cat_spendable_coins` (cat_wallet.py lines 460-472): keeps
the spendable records whose lineage proof is present and not empty
(`lineage is not None and not lineage.is_none()`). -/
def CATWallet.get_cat_spendable_coins (s : CATWalletState) : List Coin :=
  s.spendable_coins.filter (fun record =>
    match CATWallet.get_lineage_proof_for_coin s record with
    | some lineage => !lineage.is_none
    | none => false)

/-- `CATWallet.get_spendable_balance` (cat_wallet.py lines 431-437): sums the
amounts of `get_cat_spendable_coins`. -/
def CATWallet.get_spendable_balance (s : CATWalletState) : Nat :=
  ((CATWallet.get_cat_spendable_coins s).map (fun record => record.amount)).sum

/-- A coin spend as `CATWallet.sign` consumes it: the coin, its puzzle reveal
and its solution (programs modelled as `Nat` identifiers). -/
structure CoinSpend where
  coin : Coin
  puzzle_reveal : Nat
  solution : Nat
deriving DecidableEq, Repr

/-- A spend bundle: coin spends plus one aggregated BLS signature
(signatures modelled as `Nat`). -/
structure SpendBundle where
  coin_spends : List CoinSpend
  aggregated_signature : Nat
deriving DecidableEq, Repr

/-- The cryptographic and CLVM collaborators of `CATWallet.sign`
(cat_wallet.py lines 510-535), none of which are among the given sources:
puzzle matching (`match_cat_puzzle ∘ uncurry_puzzle`, returning the inner
puzzle of a CAT-shaped reveal), tree hashing, key lookup and synthetic-key
derivation, condition extraction and the AGG_SIG_ME (public key, message)
pairs, BLS signing and aggregation. -/
structure SignContext where
  match_cat_puzzle : Nat → Option Nat
  get_tree_hash : Nat → Nat
  get_private_key : Nat → Nat
  calculate_synthetic_secret_key : Nat → Nat → Nat
  default_hidden_puzzle_hash : Nat
  max_block_cost_clvm : Nat
  agg_sig_me_additional_data : Nat
  conditions_dict_for_solution : Nat → Nat → Nat → Nat
  coin_name : Coin → Nat
  pkm_pairs_for_conditions_dict : Nat → Nat → Nat → List (Nat × Nat)
  get_g1 : Nat → Nat
  bls_sign : Nat → Nat → Nat
  bls_aggregate : List Nat → Nat

/-- The inner loop of `CATWallet.sign` over one spend's AGG_SIG_ME
`(public key, message)` pairs: sign each obligation whose declared key equals
the synthetic public key, abort on the first mismatch. -/
def sign_pkm_pairs (ctx : SignContext) (synthetic_secret_key synthetic_pk : Nat) :
    List (Nat × Nat) → Except String (List Nat)
  | [] => .ok []
  | (pk, msg) :: rest =>
      if synthetic_pk = pk then
        match sign_pkm_pairs ctx synthetic_secret_key synthetic_pk rest with
        | .ok sigs => .ok (ctx.bls_sign synthetic_secret_key msg :: sigs)
        | .error e => .error e
      else .error "This spend bundle cannot be signed by the CAT wallet"

/-- Processing of a single coin spend inside `CATWallet.sign`: non-CAT spends
contribute no signatures; CAT spends derive the synthetic key from the inner
puzzle's owning private key and sign every AGG_SIG_ME obligation. -/
def sign_spend (ctx : SignContext) (spend : CoinSpend) : Except String (List Nat) :=
  match ctx.match_cat_puzzle spend.puzzle_reveal with
  | none => .ok []
  | some inner_puzzle =>
      let private_key := ctx.get_private_key (ctx.get_tree_hash inner_puzzle)
      let synthetic_secret_key :=
        ctx.calculate_synthetic_secret_key private_key ctx.default_hidden_puzzle_hash
      let conditions := ctx.conditions_dict_for_solution spend.puzzle_reveal
        spend.solution ctx.max_block_cost_clvm
      let synthetic_pk := ctx.get_g1 synthetic_secret_key
      sign_pkm_pairs ctx synthetic_secret_key synthetic_pk
        (ctx.pkm_pairs_for_conditions_dict conditions (ctx.coin_name spend.coin)
          ctx.agg_sig_me_additional_data)

/-- The outer loop of `CATWallet.sign` over all coin spends, concatenating the
collected signatures in order. -/
def sign_all_spends (ctx : SignContext) : List CoinSpend → Except String (List Nat)
  | [] => .ok []
  | spend :: rest =>
      match sign_spend ctx spend with
      | .error e => .error e
      | .ok sigs =>
          match sign_all_spends ctx rest with
          | .error e => .error e
          | .ok more => .ok (sigs ++ more)

/-- `CATWallet.sign` (cat_wallet.py lines 510-535): collect signatures for
every CAT-matching spend, BLS-aggregate them, and aggregate the result with
the original (unsigned) bundle.  A raised `ValueError` is modelled as
`Except.error`. -/
def CATWallet.sign (ctx : SignContext) (spend_bundle : SpendBundle) :
    Except String SpendBundle :=
  match sign_all_spends ctx spend_bundle.coin_spends with
  | .error e => .error e
  | .ok sigs =>
      .ok ⟨spend_bundle.coin_spends,
        ctx.bls_aggregate [spend_bundle.aggregated_signature, ctx.bls_aggregate sigs]⟩

/-- A concrete signing context in which every spend matches as a CAT, the
derived synthetic public key is `0`, and the single AGG_SIG_ME obligation
declares public key `1`. -/
def sign_context_example : SignContext where
  match_cat_puzzle := fun _ => some 0
  get_tree_hash := fun h => h
  get_private_key := fun h => h
  calculate_synthetic_secret_key := fun sk _ => sk
  default_hidden_puzzle_hash := 0
  max_block_cost_clvm := 0
  agg_sig_me_additional_data := 0
  conditions_dict_for_solution := fun _ _ _ => 0
  coin_name := fun _ => 0
  pkm_pairs_for_conditions_dict := fun _ _ _ => [(1, 0)]
  get_g1 := fun _ => 0
  bls_sign := fun _ _ => 0
  bls_aggregate := fun _ => 0

/-- A CAT payment: destination puzzle hash, amount, and memo list with the
destination hash prepended as a hint. -/
structure Payment where
  puzzle_hash : Nat
  amount : Nat
  memos : List Nat
deriving DecidableEq, Repr

/-- The payment-building loop of `generate_signed_transaction` (cat_wallet.py
lines 826-830): one `Payment` per zipped `(amount, puzhash, memo_list)` entry,
with the destination puzzle hash prepended to its memos. -/
def build_payments : List Nat → List Nat → List (List Nat) → List Payment
  | amount :: amounts, puzhash :: puzhashes, memo_list :: memos =>
      ⟨puzhash, amount, puzhash :: memo_list⟩ :: build_payments amounts puzhashes memos
  | _, _, _ => []

/-- The entry validation of `CATWallet.generate_signed_transaction`
(cat_wallet.py lines 803-830): default `memos` to one empty list per puzzle
hash, raise when the three lists disagree in length, otherwise build the
payments and continue.  Everything after the payments loop — the max-send
check, `generate_unsigned_spendbundle` (which performs all coin selection),
signing and record construction — runs only past the guard and is abstracted
as `rest`, an arbitrary continuation acting on the wallet state `σ`. -/
def CATWallet.generate_signed_transaction {σ R : Type}
    (rest : List Payment → σ → σ × Except String R) (state : σ)
    (amounts : List Nat) (puzzle_hashes : List Nat)
    (memos : Option (List (List Nat))) : σ × Except String R :=
  let memos := match memos with
    | none => List.replicate puzzle_hashes.length []
    | some ms => ms
  if ¬(memos.length = puzzle_hashes.length ∧ puzzle_hashes.length = amounts.length)
  then (state, .error "Memos, puzzle_hashes, and amounts must have the same length")
  else rest (build_payments amounts puzzle_hashes memos) state

/-- The entry guard of `CATWallet.create_new_cat_wallet` (cat_wallet.py lines
98-143): the confirmed balance of the funding standard wallet is read and the
call fails with `ValueError("Not enough balance")` when `amount` exceeds it —
before the provisional wallet record is created.  Issuance, registration and
rollback all happen past the guard and are abstracted as the continuation
`rest` acting on the wallet-manager state `σ`. -/
def CATWallet.create_new_cat_wallet {σ R : Type}
    (get_confirmed_balance_for_wallet : σ → Nat)
    (rest : σ → σ × Except String R) (state : σ) (amount : Nat) :
    σ × Except String R :=
  let bal := get_confirmed_balance_for_wallet state
  if amount > bal then (state, .error "Not enough balance")
  else rest state

/-! ### Coin spend composition engine:
`chia/wallet/action_manager/coin_info.py` -/

/-- A value of a `Solver` map: a decimal-string integer, a hex-prefixed byte
string (carried as the numeric value of the bytes), a nested Solver, or a
list. -/
inductive SolverVal where
  | str : String → SolverVal
  | bytes : Nat → SolverVal
  | sub : List (String × SolverVal) → SolverVal
  | lst : List SolverVal → SolverVal

/-- A `Solver`: an ordered string-keyed map. -/
abbrev Solver := List (String × SolverVal)

/-- A wallet action: its stable name plus its Solver description. -/
structure WalletAction where
  name : String
  payload : Solver

/-- An action alias.  In the source `de_alias` and `to_solver` are methods of
the aliased action object produced by `from_solver`; the embedding carries the
three conversions in the alias record and composes them the way
`create_spend_for_actions` does
(`action_aliases[t].from_solver(action).de_alias().to_solver()`). -/
structure ActionAlias where
  from_solver : Solver → WalletAction
  de_alias : WalletAction → WalletAction
  to_solver : WalletAction → Solver

/-- The inner driver role: supported inner action parsers keyed by name,
alias table, and inner puzzle/solution construction (programs as `Nat`). -/
structure InnerDriver where
  get_actions : List (String × (Solver → WalletAction))
  get_aliases : List (String × ActionAlias)
  construct_inner_puzzle : Nat
  construct_inner_solution : List WalletAction → Bool → Nat

/-- The outer driver role: supported outer action parsers, alias table,
`check_and_modify_actions`, and outer puzzle/solution construction. -/
structure OuterDriver where
  get_actions : List (String × (Solver → WalletAction))
  get_aliases : List (String × ActionAlias)
  check_and_modify_actions :
    Coin → List WalletAction → List WalletAction →
      List WalletAction × List WalletAction
  construct_outer_puzzle : Nat → Nat
  construct_outer_solution : List WalletAction → Nat → Bool → Nat

/-- `CoinInfo` (coin_info.py lines 20-25); the `_description` Solver plays no
part in `create_spend_for_actions` and is omitted. -/
structure CoinInfo where
  coin : Coin
  outer_driver : OuterDriver
  inner_driver : InnerDriver

/-- `action["type"]`: Python raises `KeyError` when the key is absent,
modelled as `Except.error`. -/
def type_key (action : Solver) : Except String SolverVal :=
  match action.lookup "type" with
  | some v => .ok v
  | none => .error "KeyError: type"

/-- Dictionary lookup keyed by an action-type value: Python string-keyed
dictionaries match only string values. -/
def lookup_by_type {α : Type} (table : List (String × α)) : SolverVal → Option α
  | .str t => table.lookup t
  | _ => none

/-- The merged alias table
`{**default_aliases, **inner_driver.get_aliases(), **outer_driver.get_aliases()}`
(coin_info.py lines 72-76): later tables override earlier ones, so lookup
tries outer first, then inner, then the defaults. -/
def merged_alias_lookup (default_aliases inner_aliases outer_aliases :
    List (String × ActionAlias)) (k : String) : Option ActionAlias :=
  match outer_aliases.lookup k with
  | some al => some al
  | none =>
      match inner_aliases.lookup k with
      | some al => some al
      | none => default_aliases.lookup k

/-- The classification loop of `create_spend_for_actions` (coin_info.py lines
79-91): de-alias each action whose type names a known alias, then file it as
outer-supported, inner-supported, or unconsumed (`actions_left`). -/
def classify_actions (ci : CoinInfo)
    (default_aliases : List (String × ActionAlias)) :
    List Solver →
      Except String (List Solver × List WalletAction × List WalletAction)
  | [] => .ok ([], [], [])
  | action :: rest =>
      match type_key action with
      | .error e => .error e
      | .ok ty =>
          let action :=
            match (match ty with
              | .str t => merged_alias_lookup default_aliases
                  ci.inner_driver.get_aliases ci.outer_driver.get_aliases t
              | _ => none) with
            | some al => al.to_solver (al.de_alias (al.from_solver action))
            | none => action
          match type_key action with
          | .error e => .error e
          | .ok ty2 =>
              match classify_actions ci default_aliases rest with
              | .error e => .error e
              | .ok (actions_left, outer_actions, inner_actions) =>
                  match lookup_by_type ci.outer_driver.get_actions ty2 with
                  | some handler =>
                      .ok (actions_left, handler action :: outer_actions,
                        inner_actions)
                  | none =>
                      match lookup_by_type ci.inner_driver.get_actions ty2 with
                      | some handler =>
                          .ok (actions_left, outer_actions,
                            handler action :: inner_actions)
                      | none =>
                          .ok (action :: actions_left, outer_actions,
                            inner_actions)

/-- `CoinInfo.create_spend_for_actions` (coin_info.py lines 65-117): classify
the actions, let the outer driver modify the (outer, inner) split, abort
atomically when any resulting inner action is not inner-supported (restoring
the full original input as `actions_left` and emptying both action lists),
then build the inner and outer puzzle/solution and return the remaining
actions with the coin spend. -/
def CoinInfo.create_spend_for_actions (ci : CoinInfo) (actions : List Solver)
    (default_aliases : List (String × ActionAlias)) (optimize : Bool) :
    Except String (List Solver × CoinSpend) :=
  match classify_actions ci default_aliases actions with
  | .error e => .error e
  | .ok (actions_left, outer_actions, inner_actions) =>
      let new_outer_actions :=
        (ci.outer_driver.check_and_modify_actions ci.coin outer_actions
          inner_actions).1
      let new_inner_actions :=
        (ci.outer_driver.check_and_modify_actions ci.coin outer_actions
          inner_actions).2
      let aborted := new_inner_actions.any (fun inner_action =>
        (ci.inner_driver.get_actions.lookup inner_action.name).isNone)
      let actions_left := if aborted then actions else actions_left
      let new_outer_actions := if aborted then [] else new_outer_actions
      let new_inner_actions := if aborted then [] else new_inner_actions
      let inner_puzzle := ci.inner_driver.construct_inner_puzzle
      let inner_solution :=
        ci.inner_driver.construct_inner_solution new_inner_actions optimize
      let outer_puzzle := ci.outer_driver.construct_outer_puzzle inner_puzzle
      let outer_solution :=
        ci.outer_driver.construct_outer_solution new_outer_actions
          inner_solution optimize
      .ok (actions_left, ⟨ci.coin, outer_puzzle, outer_solution⟩)

/-- A concrete `CoinInfo` whose outer driver's `check_and_modify_actions`
introduces an inner action `"pay"` that the (empty) inner action table does
not support. -/
def coin_info_example : CoinInfo where
  coin := ⟨0, 0, 0⟩
  outer_driver :=
    { get_actions := []
      get_aliases := []
      check_and_modify_actions := fun _ outer _ => (outer, [⟨"pay", []⟩])
      construct_outer_puzzle := fun p => p
      construct_outer_solution := fun _ s _ => s }
  inner_driver :=
    { get_actions := []
      get_aliases := []
      construct_inner_puzzle := 0
      construct_inner_solution := fun _ _ => 0 }

/-- Modelled from the spec: `cast_to_int` from `chia/wallet/puzzle_drivers.py`
(not among the given sources) — Solver values are decimal-string integers or
hex-prefixed byte strings, both castable to an integer; anything else fails. -/
def cast_to_int : SolverVal → Except String Int
  | .str s =>
      match s.toInt? with
      | some n => .ok n
      | none => .error "ValueError: invalid literal"
  | .bytes b => .ok b
  | _ => .error "ValueError: cannot cast to int"

/-- A `PuzzleDescription`: the CAT outer driver keyed by the asset tail,
paired with the describing Solver. -/
structure PuzzleDescription where
  driver_tail : Nat
  description : Solver

/-- A `SolutionDescription`: actions plus the describing Solver. -/
structure SolutionDescription where
  actions : List WalletAction
  description : Solver

/-- A `SpendDescription`: the discovered coin, its outer puzzle and solution
descriptions, and the inner descriptions fetched from the wallet manager
(abstracted to identifiers). -/
structure SpendDescription where
  coin : Coin
  puzzle : PuzzleDescription
  solution : SolutionDescription
  inners : List Nat

/-- External collaborators of `select_coins_from_spend_descriptions`
(cat_wallet.py lines 943-1019), none of which are among the given sources:
coin naming, `SpendBundle.not_ephemeral_additions`, CAT puzzle matching,
tree hashing, solution decomposition (`solution.to_program().at("f")`),
program execution yielding `(opcode, puzzle_hash, amount)` conditions, tail
extraction from the `asset_types` Solver shape, inner-description lookup, and
`disassemble` of a lineage proof. -/
structure OfferContext where
  coin_name : Coin → Nat
  not_ephemeral_additions : List CoinSpend → List Coin
  match_cat_puzzle : Nat → Option (Nat × Nat × Nat)
  get_tree_hash : Nat → Nat
  solution_first : Nat → Nat
  run_program : Nat → Nat → List (Nat × Nat × Nat)
  asset_types_tail : SolverVal → Except String Nat
  get_inner_descriptions_for_puzzle_hash : Nat → List Nat
  lineage_string : LineageProof → String

/-- `target_amount = cast_to_int(coin_spec["amount"])` (cat_wallet.py line
947); a missing key raises. -/
def get_target_amount (coin_spec : Solver) : Except String Int :=
  match coin_spec.lookup "amount" with
  | some v => cast_to_int v
  | none => .error "KeyError: amount"

/-- The `expected_tail` extraction (cat_wallet.py lines 948-956): try
`asset_id`, then `asset_description["tail"]`, then the first `asset_types`
entry; with none of the three keys the caller returns early, signalled here
by `.ok none`. -/
def get_expected_tail (ctx : OfferContext) (coin_spec : Solver) :
    Except String (Option Nat) :=
  match coin_spec.lookup "asset_id" with
  | some (SolverVal.bytes b) => .ok (some b)
  | some _ => .error "ValueError: asset_id"
  | none =>
      match coin_spec.lookup "asset_description" with
      | some (SolverVal.sub desc) =>
          match desc.lookup "tail" with
          | some (SolverVal.bytes b) => .ok (some b)
          | some _ => .error "ValueError: tail"
          | none => .error "KeyError: tail"
      | some _ => .error "TypeError: asset_description"
      | none =>
          match coin_spec.lookup "asset_types" with
          | some v =>
              match ctx.asset_types_tail v with
              | .ok b => .ok (some b)
              | .error e => .error e
          | none => .ok none

/-- Total amount of the selected spend descriptions
(`sum(c.coin.amount for c in selected_coins)`). -/
def selected_amount (selected_coins : List SpendDescription) : Nat :=
  (selected_coins.map (fun sd => sd.coin.amount)).sum

/-- One discovered same-asset coin (cat_wallet.py lines 980-1005): the new
coin's parent is the matched spend's coin; the outer description pins the
tail, the solution description records the coin id and the parent lineage
proof, and inner descriptions come from the wallet manager. -/
def make_spend_description (ctx : OfferContext) (expected_tail : Nat)
    (parent_spend : CoinSpend) (parent_lineage : LineageProof)
    (inner_puzzle_hash amount : Nat) : SpendDescription :=
  let selected_coin : Coin :=
    ⟨ctx.coin_name parent_spend.coin, inner_puzzle_hash, amount⟩
  { coin := selected_coin
    puzzle := ⟨expected_tail, [("tail", SolverVal.bytes expected_tail)]⟩
    solution := ⟨[],
      [("my_id", SolverVal.bytes (ctx.coin_name selected_coin)),
       ("lineage_proof", SolverVal.str (ctx.lineage_string parent_lineage))]⟩
    inners := ctx.get_inner_descriptions_for_puzzle_hash inner_puzzle_hash }

/-- The create-coin walk over one matched spend's conditions (cat_wallet.py
lines 978-1007): collect each opcode-51 output as a new selectable coin and
stop once the target amount is reached. -/
def collect_created_coins (ctx : OfferContext) (expected_tail : Nat)
    (parent_spend : CoinSpend) (parent_lineage : LineageProof)
    (target_amount : Int) :
    List (Nat × Nat × Nat) → List SpendDescription → List SpendDescription
  | [], selected_coins => selected_coins
  | (opcode, inner_puzzle_hash, amount) :: rest, selected_coins =>
      if opcode = 51 then
        let selected_coins := selected_coins ++
          [make_spend_description ctx expected_tail parent_spend parent_lineage
            inner_puzzle_hash amount]
        if (selected_amount selected_coins : Int) ≥ target_amount
        then selected_coins
        else collect_created_coins ctx expected_tail parent_spend
          parent_lineage target_amount rest selected_coins
      else collect_created_coins ctx expected_tail parent_spend parent_lineage
        target_amount rest selected_coins

/-- The loop over candidate parent spends (cat_wallet.py lines 966-1010):
spends matching the CAT template with the expected tail contribute their
create-coin outputs; the loop stops once something was selected and the
target amount is reached. -/
def select_from_parent_spends (ctx : OfferContext) (expected_tail : Nat)
    (target_amount : Int) :
    List CoinSpend → List SpendDescription → List SpendDescription
  | [], selected_coins => selected_coins
  | parent_spend :: rest, selected_coins =>
      let selected_coins :=
        match ctx.match_cat_puzzle parent_spend.puzzle_reveal with
        | some (_mod_hash, genesis_coin_checker_hash, inner_puzzle) =>
            if genesis_coin_checker_hash = expected_tail then
              collect_created_coins ctx expected_tail parent_spend
                ⟨some parent_spend.coin.parent_coin_info,
                 some (ctx.get_tree_hash inner_puzzle),
                 some parent_spend.coin.amount⟩
                target_amount
                (ctx.run_program inner_puzzle
                  (ctx.solution_first parent_spend.solution))
                selected_coins
            else selected_coins
        | none => selected_coins
      if (selected_amount selected_coins : Int) ≥ target_amount ∧
          selected_coins.length > 0
      then selected_coins
      else select_from_parent_spends ctx expected_tail target_amount rest
        selected_coins

/-- `CATWallet.select_coins_from_spend_descriptions` (cat_wallet.py lines
943-1019): extract target amount and asset tail (returning `([], coin_spec)`
when no asset key names one), restrict the in-progress bundle to spends whose
coins parent a non-ephemeral addition, walk matching CAT spends for created
coins, and return the selection plus a freshly built residual request
`{"asset_id": tail, "amount": str(remaining)}` when short (or `none`). -/
def CATWallet.select_coins_from_spend_descriptions (ctx : OfferContext)
    (coin_spec : Solver) (previous_actions : List CoinSpend) :
    Except String (List SpendDescription × Option Solver) :=
  match get_target_amount coin_spec with
  | .error e => .error e
  | .ok target_amount =>
      match get_expected_tail ctx coin_spec with
      | .error e => .error e
      | .ok none => .ok ([], some coin_spec)
      | .ok (some expected_tail) =>
          let non_ephemeral_parents :=
            (ctx.not_ephemeral_additions previous_actions).map
              (fun coin => coin.parent_coin_info)
          let parent_spends := previous_actions.filter
            (fun cs => ctx.coin_name cs.coin ∈ non_ephemeral_parents)
          let selected_coins :=
            select_from_parent_spends ctx expected_tail target_amount
              parent_spends []
          let remaining_balance :=
            target_amount - (selected_amount selected_coins : Int)
          .ok (selected_coins,
            if remaining_balance > 0 then
              some [("asset_id", SolverVal.bytes expected_tail),
                    ("amount", SolverVal.str (toString remaining_balance))]
            else none)

/-- A concrete offer context in which the in-progress bundle machinery is
trivial: no spend matches the CAT template. -/
def offer_context_example : OfferContext where
  coin_name := fun _ => 0
  not_ephemeral_additions := fun _ => []
  match_cat_puzzle := fun _ => none
  get_tree_hash := fun h => h
  solution_first := fun s => s
  run_program := fun _ _ => []
  asset_types_tail := fun _ => .error "unsupported"
  get_inner_descriptions_for_puzzle_hash := fun _ => []
  lineage_string := fun _ => ""

/-- A coin spec naming its asset through the `asset_description` shape with
tail `7` and requesting amount `100`. -/
def coin_spec_example : Solver :=
  [("asset_description", SolverVal.sub [("tail", SolverVal.bytes 7)]),
   ("amount", SolverVal.bytes 100)]

/-! ### Theorems -/

/-- Claim C3: the spec says that for every `db_path` and `db_version > 1`,
after entering `dbp` the file exists and holds a one-row `database_version`
table.  The code only creates the stub when a file pre-existed at `db_path`:
entering on a fresh path with `db_version = 2` leaves no file, while entering
on a pre-existing file does create the stub, and exit always deletes it. -/
theorem dbp_enter_fresh_path_creates_no_file :
    dbp_enter none 2 = none ∧
    dbp_enter (some [0]) 2 = some [2] ∧
    dbp_exit (dbp_enter none 2) = none ∧
    dbp_exit (dbp_enter (some [0]) 2) = none :=
  ⟨rfl, rfl, rfl, rfl⟩

/-- Claim C7 counterexample: a disabled list containing BASE twice.  `remove`
deletes only the first occurrence, so BASE is still in the list when flags are
computed and BASE comes back disabled (flag "0"), contradicting the claim that
BASE always keeps flag "1". -/
theorem get_capabilities_duplicate_base_counterexample :
    (get_capabilities capabilities (some [1, 1])).1 = [(1, "0"), (2, "1"), (3, "1")] ∧
    (Capability.BASE, "1") ∉ (get_capabilities capabilities (some [1, 1])).1 := by
  decide

/-- Claim C7, amended: for a disabled list containing BASE exactly once, BASE
keeps its original flag "1", every other capability in the disabled list gets
flag "0", and every capability not in the disabled list keeps its flag. -/
theorem get_capabilities_base_forced_on (d : List Nat)
    (h : d.count Capability.BASE = 1) :
    (get_capabilities capabilities (some d)).1 =
      capabilities.map (fun c =>
        if c.1 ∈ d ∧ c.1 ≠ Capability.BASE then (c.1, "0") else c) ∧
    (Capability.BASE, "1") ∈ (get_capabilities capabilities (some d)).1 := by
  have hmem : Capability.BASE ∈ d := by
    by_contra hc
    rw [List.count_eq_zero_of_not_mem hc] at h
    exact absurd h (by decide)
  have hnotin : Capability.BASE ∉ d.erase Capability.BASE := by
    have hcount : (d.erase Capability.BASE).count Capability.BASE = 0 := by
      rw [List.count_erase_self, h]
    exact List.count_eq_zero.mp hcount
  have hmap : (get_capabilities capabilities (some d)).1 =
      capabilities.map (fun c =>
        if c.1 ∈ d ∧ c.1 ≠ Capability.BASE then (c.1, "0") else c) := by
    simp only [get_capabilities, if_pos hmem]
    refine List.map_congr_left ?_
    intro c _
    by_cases hcb : c.1 = Capability.BASE
    · rw [if_neg (by rw [hcb]; exact hnotin),
        if_neg (by rw [hcb]; exact fun hx => hx.2 rfl)]
    · by_cases hcd : c.1 ∈ d
      · rw [if_pos ((List.mem_erase_of_ne hcb).mpr hcd), if_pos ⟨hcd, hcb⟩]
      · rw [if_neg (fun hx => hcd ((List.mem_erase_of_ne hcb).mp hx)),
          if_neg (fun hx => hcd hx.1)]
  refine ⟨hmap, ?_⟩
  rw [hmap]
  simp [capabilities, Capability.BASE]

/-- Witness for `get_capabilities_base_forced_on`. -/
theorem get_capabilities_base_forced_on_witness :
    (get_capabilities capabilities (some [1, 2])).1 =
      capabilities.map (fun c =>
        if c.1 ∈ [1, 2] ∧ c.1 ≠ Capability.BASE then (c.1, "0") else c) ∧
    (Capability.BASE, "1") ∈ (get_capabilities capabilities (some [1, 2])).1 :=
  get_capabilities_base_forced_on [1, 2] (by decide)

/-- Erasing an element that occurs in a list removes exactly its first
occurrence: the list splits as `l1 ++ a :: l2` with `a ∉ l1` and the erased
list is `l1 ++ l2`. -/
theorem erase_splits_at_first_occurrence {a : Nat} :
    ∀ l : List Nat, a ∈ l →
      ∃ l1 l2, l = l1 ++ a :: l2 ∧ a ∉ l1 ∧ l.erase a = l1 ++ l2 := by
  intro l hl
  induction l with
  | nil => cases hl
  | cons b t ih =>
    by_cases hb : b = a
    · subst hb
      exact ⟨[], t, rfl, by simp, by simp⟩
    · have ht : a ∈ t := by
        cases hl with
        | head => exact absurd rfl hb
        | tail _ h => exact h
      obtain ⟨l1, l2, h1, h2, h3⟩ := ih ht
      refine ⟨b :: l1, l2, by simp [h1], ?_, ?_⟩
      · intro hx
        cases hx with
        | head => exact hb rfl
        | tail _ hx => exact h2 hx
      · rw [List.erase_cons_tail (by simpa using hb)]
        simp [h3]

/-- Claim C10 counterexample: for the caller's list `[BASE, BASE]`,
`get_capabilities` removes only the first occurrence of BASE, so after the
call the caller's list still contains BASE — contradicting the claim that the
list "no longer contains BASE". -/
theorem get_capabilities_duplicate_base_mutation_counterexample :
    (get_capabilities capabilities (some [1, 1])).2 = some [1] ∧
    Capability.BASE ∈ [1] := by
  decide

/-- Claim C10, amended: when the disabled list contains BASE,
`get_capabilities` removes exactly the first occurrence of BASE from the
caller's list (so BASE is gone afterwards only if it occurred once); a list
not containing BASE is left unmodified. -/
theorem get_capabilities_removes_first_base (d : List Nat) :
    (Capability.BASE ∈ d →
      ∃ l1 l2, d = l1 ++ Capability.BASE :: l2 ∧ Capability.BASE ∉ l1 ∧
        (get_capabilities capabilities (some d)).2 = some (l1 ++ l2)) ∧
    (Capability.BASE ∉ d → (get_capabilities capabilities (some d)).2 = some d) := by
  constructor
  · intro hmem
    obtain ⟨l1, l2, h1, h2, h3⟩ := erase_splits_at_first_occurrence d hmem
    exact ⟨l1, l2, h1, h2, by simp only [get_capabilities, if_pos hmem, h3]⟩
  · intro hmem
    simp only [get_capabilities, if_neg hmem]

/-- Witness for `get_capabilities_removes_first_base`: the duplicate-BASE list
`[1, 1]` splits at its first element and only that occurrence is removed. -/
theorem get_capabilities_removes_first_base_witness :
    ∃ l1 l2, ([1, 1] : List Nat) = l1 ++ Capability.BASE :: l2 ∧
      Capability.BASE ∉ l1 ∧
      (get_capabilities capabilities (some [1, 1])).2 = some (l1 ++ l2) :=
  (get_capabilities_removes_first_base [1, 1]).1 (by decide)

/-- Claim C2 counterexample: three coins with amounts `[3, 2, 1]`, cost `C = 2`
per transaction and budget `M = 10` (`M/2 = 5`).  The third coin's inclusion
would push cumulative cost to `6 > 5`, so per the claim all three amounts
(total 6) are returned; the code's lookahead break returns only the first two
coins' amounts (total 5). -/
theorem get_max_send_amount_three_coin_counterexample :
    CATWallet.get_max_send_amount [3, 2, 1] 2 10 = 5 ∧
    ((3 * 2 : Nat) : ℚ) > (10 : ℚ) / 2 ∧
    ((2 * 2 : Nat) : ℚ) ≤ (10 : ℚ) / 2 ∧
    (5 : Nat) ≠ 3 + 2 + 1 := by
  refine ⟨?_, by norm_num, by norm_num, by decide⟩
  rw [CATWallet.get_max_send_amount]
  rw [if_neg (by simp)]
  have hsort : List.insertionSort (fun a b => a ≥ b) [3, 2, 1] = [3, 2, 1] := by
    decide
  rw [hsort]
  rw [get_max_send_amount_loop]
  rw [if_neg (by norm_num)]
  rw [get_max_send_amount_loop]
  rw [if_pos (by norm_num)]

/-- Claim C2, amended: the loop stops as soon as the cumulative cost plus one
further per-transaction cost exceeds `M/2`.  For a 3-coin wallet where the 3rd
coin's inclusion would push cumulative cost over `M/2` (while two fit), the
returned amount includes only the two largest coins' amounts. -/
theorem get_max_send_amount_three_coin_stops_at_two (a1 a2 a3 C M : Nat)
    (h21 : a2 ≤ a1) (h32 : a3 ≤ a2)
    (h2 : ((2 * C : Nat) : ℚ) ≤ (M : ℚ) / 2)
    (h3 : ((3 * C : Nat) : ℚ) > (M : ℚ) / 2) :
    CATWallet.get_max_send_amount [a1, a2, a3] C M = a1 + a2 := by
  have hsorted : List.Sorted (fun a b => a ≥ b) [a1, a2, a3] := by
    simp [List.sorted_cons]
    omega
  rw [CATWallet.get_max_send_amount]
  rw [if_neg (by simp)]
  rw [List.Sorted.insertionSort_eq hsorted]
  rw [get_max_send_amount_loop]
  rw [if_neg (by push_cast at h2 ⊢; linarith)]
  rw [get_max_send_amount_loop]
  rw [if_pos (by push_cast at h3 ⊢; linarith)]
  omega

/-- Witness for `get_max_send_amount_three_coin_stops_at_two`. -/
theorem get_max_send_amount_three_coin_stops_at_two_witness :
    CATWallet.get_max_send_amount [30, 20, 10] 2 10 = 30 + 20 :=
  get_max_send_amount_three_coin_stops_at_two 30 20 10 2 10
    (by decide) (by decide) (by norm_num) (by norm_num)

/-- For predicates `p → q`, filtering by `p` keeps an amount sum no larger
than filtering by `q`. -/
theorem sum_filter_amount_mono (p q : Coin → Bool)
    (hpq : ∀ x, p x = true → q x = true) :
    ∀ l : List Coin,
      ((l.filter p).map (fun c => c.amount)).sum ≤
        ((l.filter q).map (fun c => c.amount)).sum := by
  intro l
  induction l with
  | nil => simp
  | cons a t ih =>
    by_cases hp : p a = true
    · rw [List.filter_cons_of_pos hp, List.filter_cons_of_pos (hpq a hp)]
      simpa using ih
    · rw [List.filter_cons_of_neg (by simpa using hp)]
      by_cases hq : q a = true
      · rw [List.filter_cons_of_pos hq]
        simp only [List.map_cons, List.sum_cons]
        omega
      · rw [List.filter_cons_of_neg (by simpa using hq)]
        exact ih

/-- If `c` is counted by `q` but not by `p` (and `p → q` everywhere), the
`p`-filtered amount sum plus `c.amount` is still within the `q`-filtered
amount sum. -/
theorem sum_filter_amount_add_le (p q : Coin → Bool)
    (hpq : ∀ x, p x = true → q x = true) (c : Coin) :
    ∀ l : List Coin, c ∈ l → p c = false → q c = true →
      ((l.filter p).map (fun x => x.amount)).sum + c.amount ≤
        ((l.filter q).map (fun x => x.amount)).sum := by
  intro l
  induction l with
  | nil => intro h; cases h
  | cons a t ih =>
    intro hmem hp hq
    rcases List.mem_cons.mp hmem with rfl | hmemt
    · rw [List.filter_cons_of_neg (by simpa using hp), List.filter_cons_of_pos hq]
      simp only [List.map_cons, List.sum_cons]
      have := sum_filter_amount_mono p q hpq t
      omega
    · by_cases hpa : p a = true
      · rw [List.filter_cons_of_pos hpa, List.filter_cons_of_pos (hpq a hpa)]
        simp only [List.map_cons, List.sum_cons]
        have := ih hmemt hp hq
        omega
      · rw [List.filter_cons_of_neg (by simpa using hpa)]
        by_cases hqa : q a = true
        · rw [List.filter_cons_of_pos hqa]
          simp only [List.map_cons, List.sum_cons]
          have := ih hmemt hp hq
          omega
        · rw [List.filter_cons_of_neg (by simpa using hqa)]
          exact ih hmemt hp hq

/-- Claim C9: an unspent coin whose stored lineage proof is present but empty
is counted by `get_confirmed_balance` yet excluded by
`get_cat_spendable_coins`; with no transaction in flight (spendable records =
unspent records) and a positive amount, the spendable balance is strictly
below the confirmed balance. -/
theorem cat_empty_lineage_confirmed_but_not_spendable
    (s : CATWalletState) (c : Coin) (lp : LineageProof)
    (hmem : c ∈ s.unspent_coins)
    (hflight : s.spendable_coins = s.unspent_coins)
    (hlk : CATWallet.get_lineage_proof_for_coin s c = some lp)
    (hempty : lp.is_none = true)
    (hpos : 0 < c.amount) :
    c ∉ CATWallet.get_cat_spendable_coins s ∧
    CATWallet.get_spendable_balance s + c.amount ≤ CATWallet.get_confirmed_balance s ∧
    CATWallet.get_spendable_balance s < CATWallet.get_confirmed_balance s := by
  have hpc : (match CATWallet.get_lineage_proof_for_coin s c with
      | some lineage => !lineage.is_none
      | none => false) = false := by
    rw [hlk]
    simp [hempty]
  have hqc : (CATWallet.get_lineage_proof_for_coin s c).isSome = true := by
    rw [hlk]; rfl
  have hpq : ∀ x : Coin, (match CATWallet.get_lineage_proof_for_coin s x with
      | some lineage => !lineage.is_none
      | none => false) = true →
      (CATWallet.get_lineage_proof_for_coin s x).isSome = true := by
    intro x hx
    cases hx2 : CATWallet.get_lineage_proof_for_coin s x with
    | none => rw [hx2] at hx; simp at hx
    | some lpx => rfl
  have hle : CATWallet.get_spendable_balance s + c.amount ≤
      CATWallet.get_confirmed_balance s := by
    rw [CATWallet.get_spendable_balance, CATWallet.get_cat_spendable_coins,
      CATWallet.get_confirmed_balance, hflight]
    exact sum_filter_amount_add_le _ _ hpq c s.unspent_coins hmem hpc hqc
  refine ⟨?_, hle, by omega⟩
  rw [CATWallet.get_cat_spendable_coins]
  intro hin
  have hmemf := List.of_mem_filter hin
  rw [hlk] at hmemf
  simp [hempty] at hmemf

/-- Witness for `cat_empty_lineage_confirmed_but_not_spendable`: one unspent
coin of amount 7 whose stored lineage proof is the empty proof. -/
theorem cat_empty_lineage_confirmed_but_not_spendable_witness :
    (⟨0, 5, 7⟩ : Coin) ∉ CATWallet.get_cat_spendable_coins
        ⟨[(0, ⟨none, none, none⟩)], [⟨0, 5, 7⟩], [⟨0, 5, 7⟩]⟩ ∧
    CATWallet.get_spendable_balance
        ⟨[(0, ⟨none, none, none⟩)], [⟨0, 5, 7⟩], [⟨0, 5, 7⟩]⟩ + 7 ≤
      CATWallet.get_confirmed_balance
        ⟨[(0, ⟨none, none, none⟩)], [⟨0, 5, 7⟩], [⟨0, 5, 7⟩]⟩ ∧
    CATWallet.get_spendable_balance
        ⟨[(0, ⟨none, none, none⟩)], [⟨0, 5, 7⟩], [⟨0, 5, 7⟩]⟩ <
      CATWallet.get_confirmed_balance
        ⟨[(0, ⟨none, none, none⟩)], [⟨0, 5, 7⟩], [⟨0, 5, 7⟩]⟩ :=
  cat_empty_lineage_confirmed_but_not_spendable
    ⟨[(0, ⟨none, none, none⟩)], [⟨0, 5, 7⟩], [⟨0, 5, 7⟩]⟩
    ⟨0, 5, 7⟩ ⟨none, none, none⟩
    (by decide) rfl rfl rfl (by decide)

/-- `sign_pkm_pairs` fails with the fixed signing-failure message as soon as
any pair's declared key differs from the synthetic key. -/
theorem sign_pkm_pairs_mismatch (ctx : SignContext) (ssk spk pk msg : Nat)
    (hne : pk ≠ spk) :
    ∀ pairs : List (Nat × Nat), (pk, msg) ∈ pairs →
      sign_pkm_pairs ctx ssk spk pairs =
        .error "This spend bundle cannot be signed by the CAT wallet" := by
  intro pairs
  induction pairs with
  | nil => intro h; cases h
  | cons head rest ih =>
    intro hmem
    rcases List.mem_cons.mp hmem with rfl | hrest
    · rw [sign_pkm_pairs, if_neg (fun h => hne h.symm)]
    · obtain ⟨hpk, hmsg⟩ := head
      rw [sign_pkm_pairs]
      by_cases hh : spk = hpk
      · rw [if_pos hh, ih hrest]
      · rw [if_neg hh]

/-- Every outcome of `sign_pkm_pairs` is either a signature list or the fixed
signing-failure message. -/
theorem sign_pkm_pairs_error_shape (ctx : SignContext) (ssk spk : Nat) :
    ∀ pairs : List (Nat × Nat),
      (∃ sigs, sign_pkm_pairs ctx ssk spk pairs = .ok sigs) ∨
      sign_pkm_pairs ctx ssk spk pairs =
        .error "This spend bundle cannot be signed by the CAT wallet" := by
  intro pairs
  induction pairs with
  | nil => exact .inl ⟨[], rfl⟩
  | cons head rest ih =>
    obtain ⟨pk, msg⟩ := head
    rw [sign_pkm_pairs]
    by_cases hh : spk = pk
    · rw [if_pos hh]
      rcases ih with ⟨sigs, hok⟩ | herr
      · rw [hok]
        exact .inl ⟨_, rfl⟩
      · rw [herr]
        exact .inr rfl
    · rw [if_neg hh]
      exact .inr rfl

/-- Every outcome of `sign_spend` is either a signature list or the fixed
signing-failure message. -/
theorem sign_spend_error_shape (ctx : SignContext) (spend : CoinSpend) :
    (∃ sigs, sign_spend ctx spend = .ok sigs) ∨
    sign_spend ctx spend =
      .error "This spend bundle cannot be signed by the CAT wallet" := by
  rw [sign_spend]
  cases ctx.match_cat_puzzle spend.puzzle_reveal with
  | none => exact .inl ⟨[], rfl⟩
  | some inner_puzzle => exact sign_pkm_pairs_error_shape ctx _ _ _

/-- If any coin spend in the list fails with the signing-failure message, the
whole signing loop fails with that message. -/
theorem sign_all_spends_mismatch (ctx : SignContext) (spend : CoinSpend)
    (hbad : sign_spend ctx spend =
      .error "This spend bundle cannot be signed by the CAT wallet") :
    ∀ spends : List CoinSpend, spend ∈ spends →
      sign_all_spends ctx spends =
        .error "This spend bundle cannot be signed by the CAT wallet" := by
  intro spends
  induction spends with
  | nil => intro h; cases h
  | cons head rest ih =>
    intro hmem
    rcases List.mem_cons.mp hmem with rfl | hrest
    · rw [sign_all_spends, hbad]
    · rcases sign_spend_error_shape ctx head with ⟨sigs, hok⟩ | herr
      · rw [sign_all_spends, hok, ih hrest]
      · rw [sign_all_spends, herr]

/-- Claim C5: a bundle containing a CAT-matching coin spend with an AGG_SIG_ME
obligation whose declared public key differs from the wallet's derived
synthetic public key makes `CATWallet.sign` fail with the signing-failure
message; no bundle (and no signature) is ever returned. -/
theorem cat_sign_mismatched_key_aborts (ctx : SignContext) (sb : SpendBundle)
    (spend : CoinSpend) (inner_puzzle pk msg : Nat)
    (hmem : spend ∈ sb.coin_spends)
    (hmatch : ctx.match_cat_puzzle spend.puzzle_reveal = some inner_puzzle)
    (hpair : (pk, msg) ∈ ctx.pkm_pairs_for_conditions_dict
        (ctx.conditions_dict_for_solution spend.puzzle_reveal spend.solution
          ctx.max_block_cost_clvm)
        (ctx.coin_name spend.coin) ctx.agg_sig_me_additional_data)
    (hne : pk ≠ ctx.get_g1 (ctx.calculate_synthetic_secret_key
        (ctx.get_private_key (ctx.get_tree_hash inner_puzzle))
        ctx.default_hidden_puzzle_hash)) :
    CATWallet.sign ctx sb =
      .error "This spend bundle cannot be signed by the CAT wallet" := by
  have hbad : sign_spend ctx spend =
      .error "This spend bundle cannot be signed by the CAT wallet" := by
    rw [sign_spend, hmatch]
    exact sign_pkm_pairs_mismatch ctx _ _ pk msg hne _ hpair
  rw [CATWallet.sign, sign_all_spends_mismatch ctx spend hbad sb.coin_spends hmem]

/-- Witness for `cat_sign_mismatched_key_aborts`. -/
theorem cat_sign_mismatched_key_aborts_witness :
    CATWallet.sign sign_context_example ⟨[⟨⟨0, 0, 0⟩, 0, 0⟩], 0⟩ =
      .error "This spend bundle cannot be signed by the CAT wallet" :=
  cat_sign_mismatched_key_aborts sign_context_example ⟨[⟨⟨0, 0, 0⟩, 0, 0⟩], 0⟩
    ⟨⟨0, 0, 0⟩, 0, 0⟩ 0 1 0
    (List.mem_singleton.mpr rfl) rfl (List.mem_singleton.mpr rfl) (by decide)

/-- Claim C8: supplied `memos` that do not match `amounts`/`puzzle_hashes` in
length (or unequal `amounts`/`puzzle_hashes`) make
`generate_signed_transaction` fail with the invalid-input message while the
wallet state is returned untouched, for every possible continuation — in
particular before any coin selection. -/
theorem generate_signed_transaction_length_guard {σ R : Type}
    (rest : List Payment → σ → σ × Except String R) (state : σ)
    (amounts : List Nat) (puzzle_hashes : List Nat) (memos : List (List Nat))
    (h : ¬(memos.length = puzzle_hashes.length ∧
      puzzle_hashes.length = amounts.length)) :
    CATWallet.generate_signed_transaction rest state amounts puzzle_hashes
        (some memos) =
      (state, .error "Memos, puzzle_hashes, and amounts must have the same length") := by
  rw [CATWallet.generate_signed_transaction, if_pos h]

/-- Witness for `generate_signed_transaction_length_guard`. -/
theorem generate_signed_transaction_length_guard_witness :
    CATWallet.generate_signed_transaction
        (fun _ (s : Nat) => (s + 1, Except.ok (0 : Nat))) 0 [1] [2] (some [[], []]) =
      (0, .error "Memos, puzzle_hashes, and amounts must have the same length") :=
  generate_signed_transaction_length_guard _ 0 [1] [2] [[], []] (by decide)

/-- Claim C4 counterexample: with confirmed balance 100 and requested amount
101, `create_new_cat_wallet` raises `"Not enough balance"` — a message that
contains no digit at all, hence neither the balance `100` nor the requested
`101`, contradicting the claim that both appear in the message. -/
theorem create_new_cat_wallet_message_lacks_amounts :
    CATWallet.create_new_cat_wallet (fun s : Nat => s)
        (fun s => (s, Except.ok (0 : Nat))) 100 101 =
      (100, .error "Not enough balance") ∧
    ("Not enough balance".data.all (fun ch => !ch.isDigit)) = true ∧
    ((toString (100 : Nat)).data.any (fun ch => ch.isDigit)) = true ∧
    ((toString (101 : Nat)).data.any (fun ch => ch.isDigit)) = true := by
  refine ⟨rfl, by decide, by decide, by decide⟩

/-- Claim C4, amended: requesting more than the funder's confirmed balance
fails with the fixed message `"Not enough balance"` (which names neither
amount), and the guard fires before the provisional wallet record is created,
so the wallet registry is unchanged for every continuation. -/
theorem create_new_cat_wallet_insufficient_balance {σ R : Type}
    (get_confirmed_balance_for_wallet : σ → Nat)
    (rest : σ → σ × Except String R) (state : σ) (amount : Nat)
    (h : amount > get_confirmed_balance_for_wallet state) :
    CATWallet.create_new_cat_wallet get_confirmed_balance_for_wallet rest
        state amount =
      (state, .error "Not enough balance") := by
  rw [CATWallet.create_new_cat_wallet]
  exact if_pos h

/-- Witness for `create_new_cat_wallet_insufficient_balance`. -/
theorem create_new_cat_wallet_insufficient_balance_witness :
    CATWallet.create_new_cat_wallet (fun s : Nat => s)
        (fun s => (s, Except.ok (0 : Nat))) 100 101 =
      (100, .error "Not enough balance") :=
  create_new_cat_wallet_insufficient_balance (fun s : Nat => s)
    (fun s => (s, Except.ok (0 : Nat))) 100 101 (by decide)

/-- Claim C1: when `check_and_modify_actions` yields an inner action whose
name is not in the inner driver's supported table, the whole call aborts
atomically: the full original action list comes back as the unconsumed
actions and the produced coin spend is exactly the one built from empty outer
and inner action lists — it embodies none of the input actions. -/
theorem create_spend_for_actions_atomic_abort (ci : CoinInfo)
    (actions : List Solver) (default_aliases : List (String × ActionAlias))
    (optimize : Bool) (actions_left : List Solver)
    (outer_actions inner_actions : List WalletAction)
    (hcls : classify_actions ci default_aliases actions =
      .ok (actions_left, outer_actions, inner_actions))
    (bad : WalletAction)
    (hbad : bad ∈ (ci.outer_driver.check_and_modify_actions ci.coin
      outer_actions inner_actions).2)
    (hunsup : ci.inner_driver.get_actions.lookup bad.name = none) :
    CoinInfo.create_spend_for_actions ci actions default_aliases optimize =
      .ok (actions, ⟨ci.coin,
        ci.outer_driver.construct_outer_puzzle
          ci.inner_driver.construct_inner_puzzle,
        ci.outer_driver.construct_outer_solution []
          (ci.inner_driver.construct_inner_solution [] optimize) optimize⟩) := by
  have hany : ((ci.outer_driver.check_and_modify_actions ci.coin outer_actions
      inner_actions).2).any (fun inner_action =>
        (ci.inner_driver.get_actions.lookup inner_action.name).isNone) = true :=
    List.any_eq_true.mpr ⟨bad, hbad, by rw [hunsup]; rfl⟩
  simp only [CoinInfo.create_spend_for_actions, hcls, hany, if_true]

/-- Witness for `create_spend_for_actions_atomic_abort`. -/
theorem create_spend_for_actions_atomic_abort_witness :
    CoinInfo.create_spend_for_actions coin_info_example
        [[("type", SolverVal.str "unknown")]] [] false =
      .ok ([[("type", SolverVal.str "unknown")]], ⟨⟨0, 0, 0⟩,
        coin_info_example.outer_driver.construct_outer_puzzle
          coin_info_example.inner_driver.construct_inner_puzzle,
        coin_info_example.outer_driver.construct_outer_solution []
          (coin_info_example.inner_driver.construct_inner_solution [] false)
          false⟩) :=
  create_spend_for_actions_atomic_abort coin_info_example
    [[("type", SolverVal.str "unknown")]] [] false
    [[("type", SolverVal.str "unknown")]] [] []
    (by simp [classify_actions, type_key, lookup_by_type, merged_alias_lookup,
      coin_info_example, List.lookup])
    ⟨"pay", []⟩ (List.mem_singleton.mpr rfl) rfl

/-- When no candidate parent spend matches the CAT template with the expected
tail, the selection loop selects nothing. -/
theorem select_from_parent_spends_no_match (ctx : OfferContext)
    (expected_tail : Nat) (target_amount : Int) :
    ∀ spends : List CoinSpend,
      (∀ cs ∈ spends, ∀ mh gc ip,
        ctx.match_cat_puzzle cs.puzzle_reveal = some (mh, gc, ip) →
          gc ≠ expected_tail) →
      select_from_parent_spends ctx expected_tail target_amount spends [] = [] := by
  intro spends
  induction spends with
  | nil => intro _; rfl
  | cons parent_spend rest ih =>
    intro hno
    rw [select_from_parent_spends]
    have hsel : (match ctx.match_cat_puzzle parent_spend.puzzle_reveal with
        | some (_mod_hash, genesis_coin_checker_hash, inner_puzzle) =>
            if genesis_coin_checker_hash = expected_tail then
              collect_created_coins ctx expected_tail parent_spend
                ⟨some parent_spend.coin.parent_coin_info,
                 some (ctx.get_tree_hash inner_puzzle),
                 some parent_spend.coin.amount⟩
                target_amount
                (ctx.run_program inner_puzzle
                  (ctx.solution_first parent_spend.solution))
                []
            else []
        | none => []) = ([] : List SpendDescription) := by
      cases hm : ctx.match_cat_puzzle parent_spend.puzzle_reveal with
      | none => rfl
      | some triple =>
          obtain ⟨mh, gc, ip⟩ := triple
          have := hno parent_spend (List.mem_cons_self _ _) mh gc ip hm
          simp [this]
    rw [hsel]
    have hcond : ¬((selected_amount [] : Int) ≥ target_amount ∧
        ([] : List SpendDescription).length > 0) := by
      intro hx
      simp at hx
    rw [if_neg hcond]
    exact ih (fun cs hcs => hno cs (List.mem_cons_of_mem _ hcs))

/-- Claim C6, amended: with a target asset named and zero candidate spends of
that asset in the in-progress bundle, the call selects nothing and the
residual request is a freshly built Solver `{"asset_id": tail, "amount":
str(target)}` when the target amount is positive, and `none` otherwise — not
the original `coin_spec` object. -/
theorem select_coins_no_matching_spends (ctx : OfferContext)
    (coin_spec : Solver) (previous_actions : List CoinSpend)
    (target_amount : Int) (expected_tail : Nat)
    (hamt : get_target_amount coin_spec = .ok target_amount)
    (htail : get_expected_tail ctx coin_spec = .ok (some expected_tail))
    (hnomatch : ∀ cs ∈ previous_actions.filter
        (fun cs => ctx.coin_name cs.coin ∈
          ((ctx.not_ephemeral_additions previous_actions).map
            (fun coin => coin.parent_coin_info))),
      ∀ mh gc ip,
        ctx.match_cat_puzzle cs.puzzle_reveal = some (mh, gc, ip) →
          gc ≠ expected_tail) :
    CATWallet.select_coins_from_spend_descriptions ctx coin_spec
        previous_actions =
      .ok ([], if target_amount > 0 then
          some [("asset_id", SolverVal.bytes expected_tail),
                ("amount", SolverVal.str (toString target_amount))]
        else none) := by
  have hsel := select_from_parent_spends_no_match ctx expected_tail
    target_amount _ hnomatch
  rw [CATWallet.select_coins_from_spend_descriptions, hamt, htail]
  simp only [hsel, selected_amount, List.map_nil, List.sum_nil,
    Nat.cast_zero, sub_zero]

/-- Claim C6 counterexample: on an empty in-progress bundle the call returns
an empty selection, but the residual request is the rebuilt Solver
`{"asset_id": 0x07, "amount": "100"}`, which is not the original `coin_spec`
(that one names the asset through `asset_description`). -/
theorem select_coins_rebuilds_residual_counterexample :
    CATWallet.select_coins_from_spend_descriptions offer_context_example
        coin_spec_example [] =
      .ok ([], some [("asset_id", SolverVal.bytes 7),
                     ("amount", SolverVal.str (toString (100 : Int)))]) ∧
    ([("asset_id", SolverVal.bytes 7),
      ("amount", SolverVal.str (toString (100 : Int)))] :
        Solver) ≠ coin_spec_example := by
  constructor
  · rfl
  · intro h
    rw [coin_spec_example] at h
    have hhead := List.head_eq_of_cons_eq h
    have := congrArg Prod.fst hhead
    simp at this
/-- Witness for `select_coins_no_matching_spends`. -/
theorem select_coins_no_matching_spends_witness :
    CATWallet.select_coins_from_spend_descriptions offer_context_example
        coin_spec_example [] =
      .ok ([], if (100 : Int) > 0 then
          some [("asset_id", SolverVal.bytes 7),
                ("amount", SolverVal.str (toString (100 : Int)))]
        else none) :=
  select_coins_no_matching_spends offer_context_example coin_spec_example []
    100 7 rfl rfl (by simp)

